import Mathlib

/-!
Shallow embedding of `src/diffusers/pipelines/rdm/pipeline_rdm.py`
(`RDMPipeline`), the retrieval-augmented diffusion text-to-image pipeline.

Tensors are embedded as nested lists of rationals: a flattened tensor is a
`Vec`, a per-batch-element embedding sequence is a `SeqEmb`, and the full
conditioning tensor (batch x sequence x dim) is a `CondTensor`.  External
collaborators (the CLIP model, the feature extractor, `torch.linalg.norm`,
the UNet denoiser, the VAE decoder, the scheduler and `randn_tensor`) are
fields of `RDMPipeline`, mirroring the modules registered in `__init__`.
Every externally visible action of `__call__` is recorded as an `Event` so
that ordering and counting properties of the call can be stated.
-/

namespace RDM

/-- A flattened numeric tensor (one latent, one embedding vector, ...). -/
abbrev Vec := List ℚ

/-- One batch element of the conditioning tensor: a sequence of embeddings. -/
abbrev SeqEmb := List Vec

/-- The conditioning tensor of shape (batch, sequence, dim). -/
abbrev CondTensor := List SeqEmb

/-- A rank-4 tensor shape (batch, channels, height, width), as produced by
`latents_shape` at lines 365-370 of `pipeline_rdm.py`. -/
structure Shape4 where
  batch : Nat
  channels : Nat
  height : Nat
  width : Nat
deriving DecidableEq, Repr

/-- A rank-4 tensor: its shape together with its (flattened) contents.  Used
for the caller-supplied `latents` argument, whose `.shape` is compared at
line 375. -/
structure Tensor4 where
  shape : Shape4
  data : Vec
deriving DecidableEq, Repr

/-- The `extra_step_kwargs` dictionary built at lines 393-401: each key is
present exactly when the scheduler's `step` signature accepts it. -/
structure ExtraStepKwargs where
  eta : Option ℚ
  generator : Option (Option Nat)
deriving DecidableEq, Repr

/-- Observable actions performed by `__call__`, in program order.
`unetCall` records the latent tensor handed to the denoiser and the batch
size of the conditioning tensor; `callbackCall` records the arguments the
progress callback is invoked with; `introspect` records one
`inspect.signature` query on the scheduler (lines 393 and 399). -/
inductive Event where
  | tokenizeCall (nPrompts : Nat)
  | warnTruncation
  | clipTextCall (nRows : Nat)
  | clipImageCall (nImages : Nat)
  | introspect
  | unetCall (input : Vec) (condBatch : Nat)
  | schedStep (kw : ExtraStepKwargs)
  | callbackCall (i : Nat) (t : Int) (lat : Vec)
  | decodeCall (lat : Vec)
deriving DecidableEq, Repr

/-- Whether the event is a denoiser (UNet) invocation. -/
def Event.isUnet : Event → Bool
  | .unetCall _ _ => true
  | _ => false

/-- Whether the event is a scheduler `step` call. -/
def Event.isSchedStep : Event → Bool
  | .schedStep _ => true
  | _ => false

/-- Whether the event is a VAE `decode` call. -/
def Event.isDecode : Event → Bool
  | .decodeCall _ => true
  | _ => false

/-- Whether the event is a progress-callback invocation. -/
def Event.isCallback : Event → Bool
  | .callbackCall _ _ _ => true
  | _ => false

/-- Whether the event is a scheduler signature introspection. -/
def Event.isIntrospect : Event → Bool
  | .introspect => true
  | _ => false

/-- Whether the event is an actual computation performed by a collaborator
(tokenization, an embedding-network forward pass, a denoiser call, a
scheduler step, or a decode), as opposed to a log message, an introspection
or a callback notification. -/
def Event.isComputation : Event → Bool
  | .tokenizeCall _ => true
  | .clipTextCall _ => true
  | .clipImageCall _ => true
  | .unetCall _ _ => true
  | .schedStep _ => true
  | .decodeCall _ => true
  | _ => false

/-- The step indices carried by the callback events of a trace, in order. -/
def callbackIndices (events : List Event) : List Nat :=
  events.filterMap (fun e =>
    match e with
    | .callbackCall i _ _ => some i
    | _ => none)

/-- The (step index, timestep) pairs carried by the callback events of a
trace, in order. -/
def callbackLog (events : List Event) : List (Nat × Int) :=
  events.filterMap (fun e =>
    match e with
    | .callbackCall i t _ => some (i, t)
    | _ => none)

/-- The pipeline with its registered modules and their configuration, as
assembled by `RDMPipeline.__init__`.  The neural collaborators (CLIP, the
feature extractor, the UNet, the VAE decoder), `torch.linalg.norm`, the
scheduler's capabilities and `randn_tensor` are external black boxes and
appear as function-valued fields. -/
structure RDMPipeline where
  tokenizer_model_max_length : Nat
  tokenizer_encode : String → List Nat
  tokenizer_pad_token : Nat
  clip_text_features : List Nat → Vec
  clip_image_features : Vec → Vec
  feature_extractor : Vec → Vec
  clip_norm : Vec → ℚ
  unet_in_channels : Nat
  unet : Vec → Int → CondTensor → Vec
  vae_block_out_channels : List Nat
  vae_scaling_factor : ℚ
  vae_decode : Vec → Vec
  scheduler_timesteps : Nat → List Int
  scheduler_init_noise_sigma : ℚ
  scheduler_scale_model_input : Vec → Int → Vec
  scheduler_step : Vec → Int → Vec → ExtraStepKwargs → Vec
  scheduler_accepts_eta : Bool
  scheduler_accepts_generator : Bool
  randn_tensor : Shape4 → Option Nat → Vec

/-- Line 127: `self.vae_scale_factor = 2 ** (len(self.vae.config.block_out_channels) - 1)`. -/
def RDMPipeline.vae_scale_factor (p : RDMPipeline) : Nat :=
  2 ^ (p.vae_block_out_channels.length - 1)

/-- Lines 28-31, `normalize_images`: each pixel is mapped to `x / 127.5 - 1`. -/
def normalize_images (images : List Vec) : List Vec :=
  images.map (fun image => image.map (fun x => x / (255 / 2) - 1))

/-- Lines 34-48, `preprocess_images`: each pixel is mapped to `(x + 1) / 2`
and the batch is handed to the external feature extractor. -/
def preprocess_images (feature_extractor : Vec → Vec) (images : List Vec) : List Vec :=
  (images.map (fun image => image.map (fun x => (x + 1) / 2))).map feature_extractor

/-- Division of a vector by its norm, mirroring
`emb / torch.linalg.norm(emb, dim=-1, keepdim=True)` (lines 332 and 342);
the norm itself is the external `torch.linalg.norm`. -/
def l2div (norm : Vec → ℚ) (v : Vec) : Vec :=
  v.map (fun x => x / norm v)

/-- Modelled from the spec: the external CLIP tokenizer, which is not part
of this repository, invoked at lines 315-321 with `padding="max_length"`,
`max_length=self.tokenizer.model_max_length`, `truncation=True`.  Per the
spec it tokenizes each prompt to a fixed maximum length: the raw token ids
are truncated to `model_max_length` and padded up to `model_max_length`. -/
def tokenizeMaxLength (p : RDMPipeline) (prompt : String) : List Nat :=
  let ids := p.tokenizer_encode prompt
  ids.take p.tokenizer_model_max_length ++
    List.replicate (p.tokenizer_model_max_length - ids.length) p.tokenizer_pad_token

/-- The size of the last dimension of a (rectangular) batch of token-id
rows, i.e. `text_input_ids.shape[-1]` at line 324. -/
def lastDimLen (idss : List (List Nat)) : Nat :=
  (idss.map List.length).foldr Nat.max 0

/-- Lines 314-333: tokenize the prompts, warn and truncate when the id
tensor exceeds `model_max_length` (line 324), embed with
`clip.get_text_features`, normalize each row, and insert the sequence axis
(`text_embeddings[:, None, :]`). -/
def encodePrompt (p : RDMPipeline) (prompts : List String) : CondTensor × List Event :=
  let text_input_ids := prompts.map (tokenizeMaxLength p)
  let truncated := lastDimLen text_input_ids > p.tokenizer_model_max_length
  let events :=
    if truncated then
      [Event.tokenizeCall prompts.length, Event.warnTruncation]
    else
      [Event.tokenizeCall prompts.length]
  let text_input_ids :=
    if truncated then
      text_input_ids.map (fun ids => ids.take p.tokenizer_model_max_length)
    else
      text_input_ids
  let text_embeddings :=
    text_input_ids.map (fun ids => l2div p.clip_norm (p.clip_text_features ids))
  (text_embeddings.map (fun v => [v]), events ++ [Event.clipTextCall text_input_ids.length])

/-- Lines 336-342: normalize and preprocess the retrieved images, embed
each once with `clip.get_image_features`, and L2-normalize each embedding. -/
def imageEmbeddingsOf (p : RDMPipeline) (retrieved_images : List Vec) : List Vec :=
  (preprocess_images p.feature_extractor (normalize_images retrieved_images)).map
    (fun im => l2div p.clip_norm (p.clip_image_features im))

/-- Lines 335-345: embed the retrieved images, replicate the same
image-embedding block for every batch element
(`image_embeddings[None, ...].repeat(batch_size, 1, 1)`), and append it
after the text embedding along the sequence axis (`torch.cat(..., dim=1)`). -/
def fuseRetrieved (p : RDMPipeline) (batch_size : Nat) (text_embeddings : CondTensor)
    (retrieved_images : List Vec) : CondTensor :=
  List.zipWith (fun row imageRows => row ++ imageRows)
    text_embeddings (List.replicate batch_size (imageEmbeddingsOf p retrieved_images))

/-- The conditioning stage for the optional `retrieved_images` argument
(line 335): fuse when present, pass through when absent, recording the CLIP
image-embedding call. -/
def fuseStage (p : RDMPipeline) (batch_size : Nat) (text_embeddings : CondTensor) :
    Option (List Vec) → CondTensor × List Event
  | none => (text_embeddings, [])
  | some imgs =>
      (fuseRetrieved p batch_size text_embeddings imgs, [Event.clipImageCall imgs.length])

/-- Lines 347-350: duplicate the conditioning for each generation per
prompt: `repeat(1, num_images_per_prompt, 1)` followed by
`view(bs_embed * num_images_per_prompt, seq_len, -1)`, which places the
`num_images_per_prompt` copies of each batch row consecutively. -/
def duplicateEmbeddings (cond : CondTensor) (num_images_per_prompt : Nat) : CondTensor :=
  (cond.map (fun row => List.replicate num_images_per_prompt row)).flatten

/-- Line 355: `do_classifier_free_guidance = guidance_scale > 1.0`. -/
def do_classifier_free_guidance (guidance_scale : ℚ) : Bool :=
  decide (1 < guidance_scale)

/-- `torch.zeros_like(text_embeddings)` (line 358): the all-zero tensor of
the same shape. -/
def zeros_like (cond : CondTensor) : CondTensor :=
  cond.map (fun row => row.map (fun v => v.map (fun _ => (0 : ℚ))))

/-- Lines 357-363: when guidance is active, concatenate the all-zero
unconditional embeddings in front of the text embeddings along the batch
axis; otherwise leave the conditioning unchanged. -/
def prependUncond (guidance_scale : ℚ) (cond : CondTensor) : CondTensor :=
  if do_classifier_free_guidance guidance_scale then zeros_like cond ++ cond else cond

/-- Lines 365-370: the latents shape
`(batch_size * num_images_per_prompt, unet.in_channels, height // vae_scale_factor, width // vae_scale_factor)`. -/
def expectedLatentsShape (p : RDMPipeline) (batch_size num_images_per_prompt height width : Nat) :
    Shape4 :=
  ⟨batch_size * num_images_per_prompt, p.unet_in_channels,
    height / p.vae_scale_factor, width / p.vae_scale_factor⟩

/-- Lines 389-401: the capability negotiation with the scheduler.  The
`eta` and `generator` entries are present in `extra_step_kwargs` exactly
when the scheduler's `step` signature accepts the corresponding keyword. -/
def extra_step_kwargs (p : RDMPipeline) (eta : ℚ) (generator : Option Nat) : ExtraStepKwargs :=
  { eta := if p.scheduler_accepts_eta then some eta else none
    generator := if p.scheduler_accepts_generator then some generator else none }

/-- `noise_pred.chunk(2)` (line 413): split the batch into its first and
second halves. -/
def chunk2 (v : Vec) : Vec × Vec :=
  (v.take (v.length / 2), v.drop (v.length / 2))

/-- Line 414: `noise_pred_uncond + guidance_scale * (noise_pred_text - noise_pred_uncond)`,
elementwise. -/
def guidanceCombine (guidance_scale : ℚ) (uncond cond : Vec) : Vec :=
  List.zipWith (fun u c => u + guidance_scale * (c - u)) uncond cond

/-- One iteration of the denoising loop, lines 404-421: optional batch
doubling of the latents, scheduler input scaling, the single denoiser call,
the optional guidance split-and-combine, the scheduler step, and the
optional progress-callback invocation (`i % callback_steps == 0`). -/
def denoiseStep (p : RDMPipeline) (guidance_scale : ℚ) (text_embeddings : CondTensor)
    (kw : ExtraStepKwargs) (hasCallback : Bool) (callback_steps : Int)
    (i : Nat) (t : Int) (latents : Vec) : Vec × List Event :=
  let cfg := do_classifier_free_guidance guidance_scale
  let latent_model_input := if cfg then latents ++ latents else latents
  let latent_model_input := p.scheduler_scale_model_input latent_model_input t
  let noise_pred := p.unet latent_model_input t text_embeddings
  let noise_pred :=
    if cfg then
      let parts := chunk2 noise_pred
      guidanceCombine guidance_scale parts.1 parts.2
    else
      noise_pred
  let nextLatents := p.scheduler_step noise_pred t latents kw
  let events := [Event.unetCall latent_model_input text_embeddings.length, Event.schedStep kw]
  let events :=
    if hasCallback && ((i : Int) % callback_steps == 0) then
      events ++ [Event.callbackCall i t nextLatents]
    else
      events
  (nextLatents, events)

/-- The denoising loop of line 403, `for i, t in enumerate(timesteps)`:
fold `denoiseStep` over the timesteps, threading the latents and the
enumeration index and concatenating the per-step traces. -/
def runLoop (p : RDMPipeline) (guidance_scale : ℚ) (text_embeddings : CondTensor)
    (kw : ExtraStepKwargs) (hasCallback : Bool) (callback_steps : Int) :
    Nat → Vec → List Int → Vec × List Event
  | _, latents, [] => (latents, [])
  | i, latents, t :: ts =>
      let step := denoiseStep p guidance_scale text_embeddings kw hasCallback callback_steps
        i t latents
      let rest := runLoop p guidance_scale text_embeddings kw hasCallback callback_steps
        (i + 1) step.1 ts
      (rest.1, step.2 ++ rest.2)

/-- Clamping to the unit interval, `(...).clamp(0, 1)` (line 426). -/
def clampUnit (x : ℚ) : ℚ :=
  if x < 0 then 0 else if 1 < x then 1 else x

/-- Lines 426-429: `image = (image / 2 + 0.5).clamp(0, 1)`, elementwise. -/
def postprocessImage (image : Vec) : Vec :=
  image.map (fun x => clampUnit (x / 2 + 1 / 2))

/-- The value returned by `__call__` (line 431-437): either PIL images (when
`output_type == "pil"`) or the raw numpy pixel array, here both carrying the
numeric contents. -/
inductive ImageOutput where
  | pil (images : Vec)
  | np (images : Vec)
deriving DecidableEq, Repr

/-- The `prompt` argument: a string, a list of strings, or a value of any
other type (line 296-301). -/
inductive PromptArg where
  | str (s : String)
  | list (prompts : List String)
  | other
deriving DecidableEq, Repr

/-- The fatal validation errors `__call__` can raise. -/
inductive CallError where
  | invalidPromptType
  | heightWidthNotDivisibleBy8 (height width : Nat)
  | invalidCallbackSteps
  | unexpectedLatentsShape (got expected : Shape4)
deriving DecidableEq, Repr

instance {ε α : Type} [DecidableEq ε] [DecidableEq α] : DecidableEq (Except ε α) := fun x y =>
  match x, y with
  | .ok a, .ok b => decidable_of_iff (a = b) (by simp)
  | .error a, .error b => decidable_of_iff (a = b) (by simp)
  | .ok _, .error _ => isFalse (by simp)
  | .error _, .ok _ => isFalse (by simp)

/-- Lines 296-301: derive the batch size from the prompt argument, raising
for any value that is neither a string nor a list. -/
def promptAndBatch : PromptArg → Except CallError (Nat × List String)
  | .str s => .ok (1, [s])
  | .list prompts => .ok (prompts.length, prompts)
  | .other => .error .invalidPromptType

/-- Lines 306-312: `callback_steps` must be a present, positive integer. -/
def callbackStepsOk : Option Int → Bool
  | none => false
  | some k => decide (0 < k)

/-- The arguments of `__call__` (lines 227-243) with their defaults.
`hasCallback` models whether the optional `callback` argument is `None`. -/
structure CallArgs where
  prompt : PromptArg
  retrieved_images : Option (List Vec) := none
  height : Nat := 768
  width : Nat := 768
  num_inference_steps : Nat := 50
  guidance_scale : ℚ := 15 / 2
  num_images_per_prompt : Nat := 1
  eta : ℚ := 0
  generator : Option Nat := none
  latents : Option Tensor4 := none
  output_type : Option String := some "pil"
  hasCallback : Bool := false
  callback_steps : Option Int := some 1

/-- Lines 379-421: set the timesteps, scale the initial noise by
`init_noise_sigma` (line 387), and run the denoising loop over the
scheduler's timesteps with the negotiated `extra_step_kwargs`; the
`callback_steps` argument was validated to be a present positive integer,
so `getD` reads the value it carries. -/
def loopOf (p : RDMPipeline) (a : CallArgs) (text_embeddings : CondTensor) (latents : Vec) :
    Vec × List Event :=
  runLoop p a.guidance_scale text_embeddings (extra_step_kwargs p a.eta a.generator)
    a.hasCallback (a.callback_steps.getD 1) 0
    (latents.map (fun x => x * p.scheduler_init_noise_sigma))
    (p.scheduler_timesteps a.num_inference_steps)

/-- Line 423: the final latents rescaled by `1 / vae.config.scaling_factor`. -/
def finalLatentsOf (p : RDMPipeline) (a : CallArgs) (text_embeddings : CondTensor)
    (latents : Vec) : Vec :=
  (loopOf p a text_embeddings latents).1.map (fun x => 1 / p.vae_scaling_factor * x)

/-- Lines 424-429: decode the rescaled final latents in one batched VAE
call and post-process the pixels into the unit interval. -/
def decodedImage (p : RDMPipeline) (a : CallArgs) (text_embeddings : CondTensor)
    (latents : Vec) : Vec :=
  postprocessImage (p.vae_decode (finalLatentsOf p a text_embeddings latents))

/-- Lines 379-437, the part of `__call__` after the latents have been
drawn or validated: negotiate the scheduler capabilities once (two
signature introspections, lines 393 and 399), run the denoising loop,
rescale and decode the final latents, and convert the pixels according to
`output_type` (lines 431-432). -/
def runAfterLatents (p : RDMPipeline) (a : CallArgs) (text_embeddings : CondTensor)
    (latents : Vec) : List Event × ImageOutput :=
  ([Event.introspect, Event.introspect] ++ (loopOf p a text_embeddings latents).2
      ++ [Event.decodeCall (finalLatentsOf p a text_embeddings latents)],
    if a.output_type = some "pil" then
      ImageOutput.pil (decodedImage p a text_embeddings latents)
    else
      ImageOutput.np (decodedImage p a text_embeddings latents))

/-- The whole of `RDMPipeline.__call__` (lines 296-437): prompt-type
validation, the `height % 8` / `width % 8` check, the `callback_steps`
check, prompt encoding, retrieved-image fusion, per-prompt duplication,
classifier-free-guidance preparation, latents drawing or shape validation,
and the denoising-plus-decoding tail.  Returns the full event trace
together with either the produced output or the raised error. -/
def pipelineCall (p : RDMPipeline) (a : CallArgs) : List Event × Except CallError ImageOutput :=
  match promptAndBatch a.prompt with
  | .error e => ([], .error e)
  | .ok bp =>
      if a.height % 8 != 0 || a.width % 8 != 0 then
        ([], .error (.heightWidthNotDivisibleBy8 a.height a.width))
      else if !callbackStepsOk a.callback_steps then
        ([], .error .invalidCallbackSteps)
      else
        let enc := encodePrompt p bp.2
        let fused := fuseStage p bp.1 enc.1 a.retrieved_images
        let text_embeddings :=
          prependUncond a.guidance_scale (duplicateEmbeddings fused.1 a.num_images_per_prompt)
        let latents_shape :=
          expectedLatentsShape p bp.1 a.num_images_per_prompt a.height a.width
        match a.latents with
        | some lat =>
            if lat.shape = latents_shape then
              let rest := runAfterLatents p a text_embeddings lat.data
              (enc.2 ++ fused.2 ++ rest.1, .ok rest.2)
            else
              (enc.2 ++ fused.2, .error (.unexpectedLatentsShape lat.shape latents_shape))
        | none =>
            let rest := runAfterLatents p a text_embeddings
              (p.randn_tensor latents_shape a.generator)
            (enc.2 ++ fused.2 ++ rest.1, .ok rest.2)

/-- The latents argument is either absent or has exactly the expected shape
(the complement of the error raised at lines 375-376). -/
def latentsOk (p : RDMPipeline) (batch_size : Nat) (a : CallArgs) : Prop :=
  match a.latents with
  | none => True
  | some lat => lat.shape = expectedLatentsShape p batch_size a.num_images_per_prompt a.height a.width

/-- A concrete pipeline instance mirroring the repository's test
configuration (`tests/pipelines/rdm/test_rdm.py` builds the VAE with
`block_out_channels=[32, 64]`, so `vae_scale_factor = 2`), with the neural
collaborators shrunk to tiny total functions so that calls can be evaluated
in full. -/
def testPipeline : RDMPipeline where
  tokenizer_model_max_length := 77
  tokenizer_encode := fun _ => List.replicate 10 1
  tokenizer_pad_token := 0
  clip_text_features := fun _ => [1, 0]
  clip_image_features := fun _ => [0, 1]
  feature_extractor := fun v => v
  clip_norm := fun _ => 1
  unet_in_channels := 1
  unet := fun input _ _ => input
  vae_block_out_channels := [32, 64]
  vae_scaling_factor := 1
  vae_decode := fun v => v
  scheduler_timesteps := fun n => (List.range n).map (fun i => ((n - 1 - i : Nat) : Int))
  scheduler_init_noise_sigma := 1
  scheduler_scale_model_input := fun v _ => v
  scheduler_step := fun noise_pred _ latents _ => List.zipWith (fun l u => l - u) latents noise_pred
  scheduler_accepts_eta := true
  scheduler_accepts_generator := true
  randn_tensor := fun s _ => List.replicate (s.batch * s.channels * s.height * s.width) 0

/-- The conditioning tensor handed to the denoising loop by `__call__`:
prompt encoding, retrieved-image fusion, per-prompt duplication, and
guidance preparation, in source order. -/
def loopConditioning (p : RDMPipeline) (batch_size : Nat) (prompts : List String) (a : CallArgs) :
    CondTensor :=
  prependUncond a.guidance_scale
    (duplicateEmbeddings (fuseStage p batch_size (encodePrompt p prompts).1 a.retrieved_images).1
      a.num_images_per_prompt)

/-- The initial latents used by `__call__`: the caller-supplied tensor when
present, otherwise a `randn_tensor` draw of the expected shape (lines
372-377). -/
def initialLatents (p : RDMPipeline) (batch_size : Nat) (a : CallArgs) : Vec :=
  match a.latents with
  | some lat => lat.data
  | none =>
      p.randn_tensor (expectedLatentsShape p batch_size a.num_images_per_prompt a.height a.width)
        a.generator

/-- The enumeration `enumerate(timesteps)` of line 403, starting at a given
index. -/
def idxList : Nat → List Int → List (Nat × Int)
  | _, [] => []
  | i, t :: ts => (i, t) :: idxList (i + 1) ts

theorem tokenizeMaxLength_length (p : RDMPipeline) (s : String) :
    (tokenizeMaxLength p s).length = p.tokenizer_model_max_length := by
  unfold tokenizeMaxLength
  simp only [List.length_append, List.length_take, List.length_replicate]
  omega

theorem lastDimLen_tokenized_le (p : RDMPipeline) (prompts : List String) :
    lastDimLen (prompts.map (tokenizeMaxLength p)) ≤ p.tokenizer_model_max_length := by
  unfold lastDimLen
  induction prompts with
  | nil => simp
  | cons s rest ih =>
      simp only [List.map_cons, List.foldr_cons, tokenizeMaxLength_length]
      exact max_le le_rfl ih

/-- The tokenizer is invoked with `truncation=True`, so the id tensor never
exceeds `model_max_length` and the warning branch at lines 324-330 never
fires: prompt encoding always produces exactly one tokenizer call and one
CLIP text-embedding call. -/
theorem encodePrompt_eq (p : RDMPipeline) (prompts : List String) :
    encodePrompt p prompts =
      (prompts.map (fun s => [l2div p.clip_norm (p.clip_text_features (tokenizeMaxLength p s))]),
       [Event.tokenizeCall prompts.length, Event.clipTextCall prompts.length]) := by
  unfold encodePrompt
  have h : ¬ lastDimLen (prompts.map (tokenizeMaxLength p)) > p.tokenizer_model_max_length :=
    not_lt.mpr (lastDimLen_tokenized_le p prompts)
  simp [h, List.map_map, Function.comp]

theorem callbackIndices_eq_map_fst (events : List Event) :
    callbackIndices events = (callbackLog events).map Prod.fst := by
  induction events with
  | nil => rfl
  | cons e rest ih =>
      cases e <;> simp [callbackIndices, callbackLog, List.filterMap_cons] <;>
        simpa [callbackIndices, callbackLog] using ih

theorem countP_isCallback_eq (events : List Event) :
    events.countP Event.isCallback = (callbackLog events).length := by
  induction events with
  | nil => rfl
  | cons e rest ih =>
      cases e <;> simp [List.countP_cons, callbackLog, List.filterMap_cons, Event.isCallback, ih]

theorem callbackLog_runLoop (p : RDMPipeline) (g : ℚ) (cond : CondTensor)
    (kw : ExtraStepKwargs) (cs : Int) (ts : List Int) :
    ∀ i lat, callbackLog (runLoop p g cond kw true cs i lat ts).2 =
      (idxList i ts).filter (fun it => (it.1 : Int) % cs == 0) := by
  induction ts with
  | nil => intro i lat; rfl
  | cons t rest ih =>
      intro i lat
      simp only [runLoop, idxList, List.filter_cons]
      rw [callbackLog, List.filterMap_append, ← callbackLog, ← callbackLog, ih]
      unfold denoiseStep
      by_cases h : ((i : Int) % cs == 0)
      · simp [h, callbackLog, List.filterMap_append]
      · simp [h, callbackLog]

theorem idxList_map_fst (ts : List Int) :
    ∀ i, (idxList i ts).map Prod.fst = (List.range ts.length).map (fun k => i + k) := by
  induction ts with
  | nil => intro i; rfl
  | cons t rest ih =>
      intro i
      simp only [idxList, List.map_cons, List.length_cons, List.range_succ_eq_map,
        List.map_map, ih, Nat.add_zero]
      refine congrArg (List.cons i) ?_
      apply List.map_congr_left
      intro k _
      simp only [Function.comp_apply]
      omega

theorem idxList_get (ts : List Int) :
    ∀ i pr, pr ∈ idxList i ts → ∃ k, k < ts.length ∧ pr.1 = i + k ∧ ts.get? k = some pr.2 := by
  induction ts with
  | nil => intro i pr h; cases h
  | cons t rest ih =>
      intro i pr h
      rcases List.mem_cons.mp h with h | h
      · exact ⟨0, by simp, by simp [h], by simp [h]⟩
      · obtain ⟨k, hk, h1, h2⟩ := ih (i + 1) pr h
        exact ⟨k + 1, by simpa using hk, by omega, by simpa using h2⟩

theorem filter_range_mod_length (m : Nat) (hm : 0 < m) (N : Nat) :
    ((List.range N).filter (fun j => j % m == 0)).length = (N + m - 1) / m := by
  induction N with
  | zero =>
      simp [Nat.div_eq_of_lt (show m - 1 < m by omega)]
  | succ n ih =>
      rw [List.range_succ, List.filter_append, List.length_append, ih]
      by_cases h : n % m = 0
      · obtain ⟨q, hq⟩ := Nat.dvd_of_mod_eq_zero h
        subst hq
        have hb : ((m * q) % m == 0) = true := by simp [Nat.mul_mod_right]
        have h1 : m * q + m - 1 = m * q + (m - 1) := by omega
        have h2 : m * q + 1 + m - 1 = m * (q + 1) := by ring_nf; omega
        rw [h1, h2, Nat.mul_add_div hm, Nat.div_eq_of_lt (show m - 1 < m by omega),
          Nat.mul_div_cancel_left _ hm]
        simp [hb]
      · have hb : ((n % m == 0) : Bool) = false := by simp [h]
        have hlt : n % m < m := Nat.mod_lt n hm
        have hmod := Nat.div_add_mod n m
        have h1 : n + m - 1 = m * (n / m) + (n % m - 1 + m) := by omega
        have h2 : n + 1 + m - 1 = m * (n / m) + (n % m + m) := by omega
        rw [h1, h2, Nat.mul_add_div hm, Nat.mul_add_div hm,
          Nat.add_div_right _ hm, Nat.add_div_right _ hm,
          Nat.div_eq_of_lt (show n % m - 1 < m by omega), Nat.div_eq_of_lt hlt]
        simp [hb]

theorem int_mod_beq (k : Int) (hk : 0 < k) (i : Nat) :
    (((i : Int) % k == 0) : Bool) = ((i % k.toNat == 0) : Bool) := by
  have hk0 : (k.toNat : Int) = k := Int.toNat_of_nonneg hk.le
  have hmod : (i : Int) % k = ((i % k.toNat : Nat) : Int) := by
    rw [Int.natCast_mod, hk0]
  rw [hmod]
  by_cases h : i % k.toNat = 0
  · rw [h]
    simp
  · have h1 : ¬ ((i % k.toNat : Nat) : Int) = 0 := by exact_mod_cast h
    rw [beq_eq_false_iff_ne.mpr h1, beq_eq_false_iff_ne.mpr h]

theorem denoiseStep_events_mem (p : RDMPipeline) (g : ℚ) (cond : CondTensor)
    (kw : ExtraStepKwargs) (hasCb : Bool) (cs : Int) (i : Nat) (t : Int) (lat : Vec) :
    ∀ e ∈ (denoiseStep p g cond kw hasCb cs i t lat).2,
      (∃ v, e = Event.unetCall v cond.length) ∨ e = Event.schedStep kw ∨
        (∃ l, e = Event.callbackCall i t l) := by
  intro e he
  simp only [denoiseStep] at he
  split at he
  · simp only [List.mem_append, List.mem_cons, List.mem_singleton, List.not_mem_nil,
      or_false] at he
    rcases he with (he | he) | he
    · exact Or.inl ⟨_, he⟩
    · exact Or.inr (Or.inl he)
    · exact Or.inr (Or.inr ⟨_, he⟩)
  · simp only [List.mem_cons, List.mem_singleton, List.not_mem_nil, or_false] at he
    rcases he with he | he
    · exact Or.inl ⟨_, he⟩
    · exact Or.inr (Or.inl he)

theorem runLoop_events_mem (p : RDMPipeline) (g : ℚ) (cond : CondTensor)
    (kw : ExtraStepKwargs) (hasCb : Bool) (cs : Int) (ts : List Int) :
    ∀ i lat, ∀ e ∈ (runLoop p g cond kw hasCb cs i lat ts).2,
      (∃ v, e = Event.unetCall v cond.length) ∨ e = Event.schedStep kw ∨
        (∃ j u l, e = Event.callbackCall j u l) := by
  induction ts with
  | nil =>
      intro i lat e h
      cases h
  | cons t rest ih =>
      intro i lat e h
      rw [runLoop] at h
      rcases List.mem_append.mp h with h | h
      · rcases denoiseStep_events_mem p g cond kw hasCb cs i t lat e h with h1 | h1 | ⟨l, h1⟩
        · exact Or.inl h1
        · exact Or.inr (Or.inl h1)
        · exact Or.inr (Or.inr ⟨i, t, l, h1⟩)
      · exact ih _ _ _ h

theorem postprocessImage_mem_unit (v : Vec) :
    ∀ x ∈ postprocessImage v, 0 ≤ x ∧ x ≤ 1 := by
  intro x hx
  obtain ⟨y, _, rfl⟩ := List.mem_map.mp hx
  unfold clampUnit
  rcases lt_or_le (y / 2 + 1 / 2) 0 with h | h
  · rw [if_pos h]
    exact ⟨le_rfl, by norm_num⟩
  · rw [if_neg (not_lt.mpr h)]
    rcases lt_or_le 1 (y / 2 + 1 / 2) with h2 | h2
    · rw [if_pos h2]
      exact ⟨by norm_num, le_rfl⟩
    · rw [if_neg (not_lt.mpr h2)]
      exact ⟨h, h2⟩

/-- When all four validations pass, `__call__` succeeds: the trace is the
prompt-encoding events, the retrieved-image events, and the
denoise-and-decode events, and the result is the produced image output. -/
theorem pipelineCall_ok (p : RDMPipeline) (a : CallArgs) (B : Nat) (prompts : List String)
    (hpb : promptAndBatch a.prompt = Except.ok (B, prompts))
    (hh : a.height % 8 = 0) (hw : a.width % 8 = 0)
    (hcb : callbackStepsOk a.callback_steps = true)
    (hlat : latentsOk p B a) :
    pipelineCall p a =
      ((encodePrompt p prompts).2
          ++ (fuseStage p B (encodePrompt p prompts).1 a.retrieved_images).2
          ++ (runAfterLatents p a (loopConditioning p B prompts a) (initialLatents p B a)).1,
        Except.ok (runAfterLatents p a (loopConditioning p B prompts a) (initialLatents p B a)).2) := by
  unfold pipelineCall
  rw [hpb]
  have hb8 : (a.height % 8 != 0 || a.width % 8 != 0) = false := by
    simp [hh, hw]
  rw [hb8, hcb]
  unfold latentsOk at hlat
  unfold initialLatents loopConditioning
  rcases hl : a.latents with _ | lat
  · simp
  · rw [hl] at hlat
    have hsh : lat.shape = expectedLatentsShape p B a.num_images_per_prompt a.height a.width := hlat
    simp [hsh]

/-- Concrete arguments shared by the concrete evaluations below: one string
prompt, `height = width = 8` (divisible by 8), two inference steps. -/
def baseArgs : CallArgs :=
  { prompt := .str "p", height := 8, width := 8, num_inference_steps := 2 }

/-- C1 counterexample.  In the repository's own test configuration
(`block_out_channels = [32, 64]`) the codec's spatial downsampling factor is
`f = 2 ^ (2 - 1) = 2`.  `height = width = 2` is a positive multiple of `f`,
so by the claim the pair passes the validation; but `__call__` raises the
divisibility error, because the check at line 303 is against the literal
constant 8, not against `f`. -/
theorem C1_counterexample :
    testPipeline.vae_scale_factor = 2 ∧
    testPipeline.vae_scale_factor ∣ 2 ∧ 0 < (2 : Nat) ∧
    (pipelineCall testPipeline { prompt := .str "a test prompt", height := 2, width := 2 }).2
      = .error (.heightWidthNotDivisibleBy8 2 2) := by
  refine ⟨by decide, by decide, by decide, by decide⟩

/-- C1 (amended): the input validation of `__call__` checks divisibility of
`height` and `width` by the literal constant 8 (independently of the
codec's downsampling factor): whenever either dimension is not divisible
by 8 the call fails with the divisibility error before any computation
(the event trace is empty), and whenever both are divisible by 8 that
error is never raised. -/
theorem C1_height_width_validation (p : RDMPipeline) (a : CallArgs)
    (hp : a.prompt ≠ PromptArg.other) :
    (¬ (a.height % 8 = 0 ∧ a.width % 8 = 0) →
        pipelineCall p a = ([], .error (.heightWidthNotDivisibleBy8 a.height a.width))) ∧
    (a.height % 8 = 0 ∧ a.width % 8 = 0 →
        ∀ h w, (pipelineCall p a).2 ≠ .error (.heightWidthNotDivisibleBy8 h w)) := by
  obtain ⟨B, prompts, hpb⟩ : ∃ B prompts, promptAndBatch a.prompt = .ok (B, prompts) := by
    cases hp2 : a.prompt with
    | str s => exact ⟨1, [s], rfl⟩
    | list l => exact ⟨l.length, l, rfl⟩
    | other => exact absurd hp2 hp
  constructor
  · intro hnd
    have hb : (a.height % 8 != 0 || a.width % 8 != 0) = true := by
      by_cases h1 : a.height % 8 = 0 <;> by_cases h2 : a.width % 8 = 0 <;>
        simp [h1, h2] at hnd ⊢
    unfold pipelineCall
    rw [hpb, hb]
    simp
  · rintro ⟨hh, hw⟩ h w
    have hb8 : (a.height % 8 != 0 || a.width % 8 != 0) = false := by
      simp [hh, hw]
    unfold pipelineCall
    rw [hpb, hb8]
    by_cases hcb : callbackStepsOk a.callback_steps
    · rw [hcb]
      rcases hl : a.latents with _ | lat
      · simp
      · by_cases hsh : lat.shape
            = expectedLatentsShape p (B, prompts).1 a.num_images_per_prompt a.height a.width
        · simp [hsh]
        · simp [hsh]
    · have hb : callbackStepsOk a.callback_steps = false := by
        simpa using hcb
      rw [hb]
      simp

/-- Witness for the amended C1: `height = 9` is rejected with the
divisibility error and an empty trace, at the concrete test pipeline. -/
theorem C1_height_width_validation_witness :
    pipelineCall testPipeline { prompt := .str "a test prompt", height := 9, width := 64 }
      = ([], .error (.heightWidthNotDivisibleBy8 9 64)) :=
  (C1_height_width_validation testPipeline
      { prompt := .str "a test prompt", height := 9, width := 64 } (by decide)).1 (by decide)

/-- C2: classifier-free guidance is active exactly when
`guidance_scale > 1`; with `guidance_scale ≤ 1` the unconditional branch is
skipped entirely: no zero-embedding block is prepended, the conditioning
batch size is unchanged, the single denoiser call of each step receives the
un-doubled (scaled) latent, and the raw conditional prediction is handed to
the scheduler step unmodified. -/
theorem C2_guidance_inactive (p : RDMPipeline) (guidance_scale : ℚ) (cond : CondTensor)
    (kw : ExtraStepKwargs) (hasCb : Bool) (cs : Int) (i : Nat) (t : Int) (latents : Vec)
    (hg : guidance_scale ≤ 1) :
    (∀ g : ℚ, do_classifier_free_guidance g = true ↔ 1 < g) ∧
    do_classifier_free_guidance guidance_scale = false ∧
    prependUncond guidance_scale cond = cond ∧
    (prependUncond guidance_scale cond).length = cond.length ∧
    (denoiseStep p guidance_scale cond kw hasCb cs i t latents).1 =
      p.scheduler_step (p.unet (p.scheduler_scale_model_input latents t) t cond) t latents kw ∧
    (denoiseStep p guidance_scale cond kw hasCb cs i t latents).2.head? =
      some (Event.unetCall (p.scheduler_scale_model_input latents t) cond.length) := by
  have hcfg : do_classifier_free_guidance guidance_scale = false := by
    unfold do_classifier_free_guidance
    simp [not_lt.mpr hg]
  refine ⟨?_, hcfg, ?_, ?_, ?_, ?_⟩
  · intro g
    unfold do_classifier_free_guidance
    simp
  · unfold prependUncond
    rw [hcfg]
    simp
  · unfold prependUncond
    rw [hcfg]
    simp
  · unfold denoiseStep
    rw [hcfg]
    simp
  · unfold denoiseStep
    rw [hcfg]
    by_cases hfire : (hasCb && ((i : Int) % cs == 0)) = true <;> simp [hfire]

/-- Witness for C2 at `guidance_scale = 1` and concrete step data. -/
theorem C2_guidance_inactive_witness :
    (denoiseStep testPipeline 1 [[[1, 0]]] ⟨some 0, some none⟩ false 1 0 5 [2, 3]).1 =
      testPipeline.scheduler_step
        (testPipeline.unet (testPipeline.scheduler_scale_model_input [2, 3] 5) 5 [[[1, 0]]])
        5 [2, 3] ⟨some 0, some none⟩ :=
  (C2_guidance_inactive testPipeline 1 [[[1, 0]]] ⟨some 0, some none⟩ false 1 0 5 [2, 3]
      (le_refl 1)).2.2.2.2.1

/-- C3: with guidance active (`guidance_scale > 1`) the unconditional
conditioning prepended to the batch is the all-zero tensor of the same
shape as the replicated text conditioning; each step performs exactly one
denoiser call, on the batch-doubled latent; and the prediction handed to
the scheduler is the two halves of the denoiser output combined as
`pred_uncond + guidance_scale * (pred_cond - pred_uncond)`. -/
theorem C3_guidance_active (p : RDMPipeline) (guidance_scale : ℚ) (cond : CondTensor)
    (kw : ExtraStepKwargs) (hasCb : Bool) (cs : Int) (i : Nat) (t : Int) (latents : Vec)
    (hg : 1 < guidance_scale) :
    do_classifier_free_guidance guidance_scale = true ∧
    prependUncond guidance_scale cond = zeros_like cond ++ cond ∧
    (zeros_like cond).map (fun row => row.map List.length)
      = cond.map (fun row => row.map List.length) ∧
    (∀ row ∈ zeros_like cond, ∀ v ∈ row, ∀ x ∈ v, x = 0) ∧
    ((denoiseStep p guidance_scale cond kw hasCb cs i t latents).2.countP Event.isUnet = 1) ∧
    (denoiseStep p guidance_scale cond kw hasCb cs i t latents).2.head? =
      some (Event.unetCall (p.scheduler_scale_model_input (latents ++ latents) t)
        cond.length) ∧
    (∀ v : Vec, chunk2 v = (v.take (v.length / 2), v.drop (v.length / 2))) ∧
    (denoiseStep p guidance_scale cond kw hasCb cs i t latents).1 =
      p.scheduler_step
        (List.zipWith (fun u c => u + guidance_scale * (c - u))
          (chunk2 (p.unet (p.scheduler_scale_model_input (latents ++ latents) t) t cond)).1
          (chunk2 (p.unet (p.scheduler_scale_model_input (latents ++ latents) t) t cond)).2)
        t latents kw := by
  have hcfg : do_classifier_free_guidance guidance_scale = true := by
    unfold do_classifier_free_guidance
    simp [hg]
  refine ⟨hcfg, ?_, ?_, ?_, ?_, ?_, fun v => rfl, ?_⟩
  · unfold prependUncond
    rw [hcfg]
    simp
  · unfold zeros_like
    simp [List.map_map, Function.comp]
  · intro row hrow v hv x hx
    unfold zeros_like at hrow
    obtain ⟨row0, _, rfl⟩ := List.mem_map.mp hrow
    obtain ⟨v0, _, rfl⟩ := List.mem_map.mp hv
    obtain ⟨x0, _, rfl⟩ := List.mem_map.mp hx
    rfl
  · unfold denoiseStep
    rw [hcfg]
    by_cases hfire : (hasCb && ((i : Int) % cs == 0)) = true <;>
      simp [hfire, List.countP_cons, Event.isUnet]
  · unfold denoiseStep
    rw [hcfg]
    by_cases hfire : (hasCb && ((i : Int) % cs == 0)) = true <;> simp [hfire]
  · unfold denoiseStep
    rw [hcfg]
    simp [guidanceCombine]

/-- Witness for C3 at `guidance_scale = 6` and concrete step data. -/
theorem C3_guidance_active_witness :
    prependUncond 6 [[[1, 0]], [[2, 3]]]
      = zeros_like [[[1, 0]], [[2, 3]]] ++ [[[1, 0]], [[2, 3]]] :=
  (C3_guidance_active testPipeline 6 [[[1, 0]], [[2, 3]]] ⟨none, none⟩ false 1 0 5 [2, 3]
      (by norm_num)).2.1

/-- C4 counterexample.  A call with a wrong-shaped pre-supplied latent does
raise the shape-mismatch error, but not "immediately before any
computation": the trace already contains computation events (the tokenizer
call and the CLIP text-embedding forward pass) when the error is raised. -/
theorem C4_counterexample :
    (pipelineCall testPipeline
        { prompt := .str "p", height := 8, width := 8, num_inference_steps := 2,
          latents := some ⟨⟨1, 1, 1, 1⟩, [0]⟩ }).2
      = .error (.unexpectedLatentsShape ⟨1, 1, 1, 1⟩ ⟨1, 1, 4, 4⟩) ∧
    ¬ (∀ e ∈ (pipelineCall testPipeline
        { prompt := .str "p", height := 8, width := 8, num_inference_steps := 2,
          latents := some ⟨⟨1, 1, 1, 1⟩, [0]⟩ }).1, Event.isComputation e = false) := by
  refine ⟨by decide, by decide⟩

/-- C4 (amended): pre-supplying an initial latent whose shape differs from
the expected `(batch_size * num_images_per_prompt, in_channels, height / f,
width / f)` raises the fatal shape-mismatch error and produces no output;
the error is raised before any denoiser call, scheduler step, or decode
(the prompt- and image-embedding computations do run first). -/
theorem C4_latents_shape_mismatch (p : RDMPipeline) (a : CallArgs) (B : Nat)
    (prompts : List String) (lat : Tensor4)
    (hpb : promptAndBatch a.prompt = Except.ok (B, prompts))
    (hh : a.height % 8 = 0) (hw : a.width % 8 = 0)
    (hcb : callbackStepsOk a.callback_steps = true)
    (hl : a.latents = some lat)
    (hs : lat.shape ≠ expectedLatentsShape p B a.num_images_per_prompt a.height a.width) :
    (pipelineCall p a).2 =
      .error (.unexpectedLatentsShape lat.shape
        (expectedLatentsShape p B a.num_images_per_prompt a.height a.width)) ∧
    ∀ e ∈ (pipelineCall p a).1,
      Event.isUnet e = false ∧ Event.isSchedStep e = false ∧ Event.isDecode e = false := by
  have hb8 : (a.height % 8 != 0 || a.width % 8 != 0) = false := by
    simp [hh, hw]
  have hcall : pipelineCall p a =
      ((encodePrompt p prompts).2
          ++ (fuseStage p B (encodePrompt p prompts).1 a.retrieved_images).2,
        .error (.unexpectedLatentsShape lat.shape
          (expectedLatentsShape p B a.num_images_per_prompt a.height a.width))) := by
    unfold pipelineCall
    rw [hpb, hb8, hcb, hl]
    simp [hs]
  rw [hcall]
  refine ⟨rfl, ?_⟩
  intro e he
  rw [encodePrompt_eq] at he
  rcases hri : a.retrieved_images with _ | imgs <;> rw [hri] at he <;>
    simp [fuseStage] at he <;> rcases he with he | he <;> try subst he
  · exact ⟨rfl, rfl, rfl⟩
  · exact ⟨rfl, rfl, rfl⟩
  · exact ⟨rfl, rfl, rfl⟩
  · rcases he with he | he <;> subst he <;> exact ⟨rfl, rfl, rfl⟩

/-- Witness for the amended C4 at the concrete test pipeline. -/
theorem C4_latents_shape_mismatch_witness :
    (pipelineCall testPipeline { baseArgs with latents := some ⟨⟨1, 2, 3, 4⟩, [0]⟩ }).2 =
      .error (.unexpectedLatentsShape ⟨1, 2, 3, 4⟩
        (expectedLatentsShape testPipeline 1 1 8 8)) :=
  (C4_latents_shape_mismatch testPipeline { baseArgs with latents := some ⟨⟨1, 2, 3, 4⟩, [0]⟩ }
      1 ["p"] ⟨⟨1, 2, 3, 4⟩, [0]⟩ rfl rfl rfl rfl rfl (by decide)).1

theorem callbackLog_append (l1 l2 : List Event) :
    callbackLog (l1 ++ l2) = callbackLog l1 ++ callbackLog l2 := by
  unfold callbackLog
  exact List.filterMap_append l1 l2 _

theorem callbackLog_encodePrompt (p : RDMPipeline) (prompts : List String) :
    callbackLog (encodePrompt p prompts).2 = [] := by
  rw [encodePrompt_eq]
  rfl

theorem callbackLog_fuseStage (p : RDMPipeline) (batch_size : Nat) (tc : CondTensor)
    (ri : Option (List Vec)) :
    callbackLog (fuseStage p batch_size tc ri).2 = [] := by
  cases ri <;> rfl

theorem runAfterLatents_fst (p : RDMPipeline) (a : CallArgs) (cond : CondTensor) (lat : Vec) :
    (runAfterLatents p a cond lat).1
      = [Event.introspect, Event.introspect] ++ (loopOf p a cond lat).2
          ++ [Event.decodeCall (finalLatentsOf p a cond lat)] := rfl

/-- The full callback log of a valid call with a callback: the filtered
enumeration of the scheduler's timesteps. -/
theorem callbackLog_pipelineCall (p : RDMPipeline) (a : CallArgs) (B : Nat)
    (prompts : List String) (k : Int)
    (hpb : promptAndBatch a.prompt = Except.ok (B, prompts))
    (hh : a.height % 8 = 0) (hw : a.width % 8 = 0)
    (hk : a.callback_steps = some k) (hkpos : 0 < k)
    (hlat : latentsOk p B a) (hcbk : a.hasCallback = true) :
    callbackLog (pipelineCall p a).1 =
      (idxList 0 (p.scheduler_timesteps a.num_inference_steps)).filter
        (fun it => ((it.1 : Int) % k == 0)) := by
  have hcb : callbackStepsOk a.callback_steps = true := by
    rw [hk]
    unfold callbackStepsOk
    exact decide_eq_true hkpos
  have htrace : (pipelineCall p a).1
      = (encodePrompt p prompts).2
          ++ (fuseStage p B (encodePrompt p prompts).1 a.retrieved_images).2
          ++ (runAfterLatents p a (loopConditioning p B prompts a) (initialLatents p B a)).1 := by
    rw [pipelineCall_ok p a B prompts hpb hh hw hcb hlat]
  rw [htrace, callbackLog_append, callbackLog_append, callbackLog_encodePrompt,
    callbackLog_fuseStage, runAfterLatents_fst, callbackLog_append, callbackLog_append]
  unfold loopOf
  rw [hcbk, hk]
  simp only [Option.getD_some]
  rw [callbackLog_runLoop]
  simp [callbackLog]

theorem callbackIndices_from_log (k : Int) (hkpos : 0 < k) (ts : List Int) (tr : List Event)
    (hlog : callbackLog tr = (idxList 0 ts).filter (fun it => ((it.1 : Int) % k == 0))) :
    callbackIndices tr = (List.range ts.length).filter (fun i => i % k.toNat == 0) := by
  rw [callbackIndices_eq_map_fst, hlog]
  rw [show (fun it : Nat × Int => ((it.1 : Int) % k == 0))
      = (fun i : Nat => ((i : Int) % k == 0)) ∘ Prod.fst from rfl]
  rw [← List.filter_map, idxList_map_fst]
  rw [show ((List.range ts.length).map (fun j => 0 + j)) = List.range ts.length by simp]
  exact List.filter_congr (fun i _ => int_mod_beq k hkpos i)

/-- C5: when a progress callback is supplied and `callback_steps` is a
positive integer `k`, the callback fires exactly
`ceil(num_inference_steps / k) = (num_inference_steps + k - 1) / k` times,
at exactly the step indices that are multiples of `k` — strictly
increasing, starting at index 0 — and each recorded invocation carries the
timestep belonging to its step index (it also receives the current latent,
recorded in the trace).  The scheduler is an external collaborator; the
hypothesis `hlen` is its contract that `set_timesteps(N)` yields `N`
timesteps. -/
theorem C5_callback_cadence (p : RDMPipeline) (a : CallArgs) (B : Nat) (prompts : List String)
    (k : Int)
    (hpb : promptAndBatch a.prompt = Except.ok (B, prompts))
    (hh : a.height % 8 = 0) (hw : a.width % 8 = 0)
    (hk : a.callback_steps = some k) (hkpos : 0 < k)
    (hlat : latentsOk p B a) (hcbk : a.hasCallback = true)
    (hlen : (p.scheduler_timesteps a.num_inference_steps).length = a.num_inference_steps) :
    (pipelineCall p a).1.countP Event.isCallback
        = (a.num_inference_steps + k.toNat - 1) / k.toNat ∧
    callbackIndices (pipelineCall p a).1
        = (List.range a.num_inference_steps).filter (fun i => i % k.toNat == 0) ∧
    List.Pairwise (· < ·) (callbackIndices (pipelineCall p a).1) ∧
    (0 < a.num_inference_steps → (callbackIndices (pipelineCall p a).1).head? = some 0) ∧
    (∀ pr ∈ callbackLog (pipelineCall p a).1,
        (p.scheduler_timesteps a.num_inference_steps).get? pr.1 = some pr.2) := by
  have hmn : 0 < k.toNat := by omega
  have hlog := callbackLog_pipelineCall p a B prompts k hpb hh hw hk hkpos hlat hcbk
  have hidx := callbackIndices_from_log k hkpos _ _ hlog
  rw [hlen] at hidx
  have hcount : (pipelineCall p a).1.countP Event.isCallback
      = (a.num_inference_steps + k.toNat - 1) / k.toNat := by
    rw [countP_isCallback_eq]
    have hlens : (callbackLog (pipelineCall p a).1).length
        = (callbackIndices (pipelineCall p a).1).length := by
      rw [callbackIndices_eq_map_fst, List.length_map]
    rw [hlens, hidx, filter_range_mod_length k.toNat hmn]
  refine ⟨hcount, hidx, ?_, ?_, ?_⟩
  · rw [hidx]
    exact List.Pairwise.filter _ (List.pairwise_lt_range _)
  · intro hN
    obtain ⟨n, hn⟩ : ∃ n, a.num_inference_steps = n + 1 :=
      ⟨a.num_inference_steps - 1, by omega⟩
    rw [hidx, hn, List.range_succ_eq_map, List.filter_cons]
    simp
  · intro pr hpr
    rw [hlog] at hpr
    obtain ⟨k2, _, h1, h2⟩ := idxList_get _ 0 pr (List.mem_filter.mp hpr).1
    rw [h1]
    simpa using h2

/-- Witness for C5: two inference steps with `callback_steps = 1` fire the
callback twice. -/
theorem C5_callback_cadence_witness :
    (pipelineCall testPipeline { baseArgs with hasCallback := true }).1.countP Event.isCallback
      = (2 + (1 : Int).toNat - 1) / (1 : Int).toNat :=
  (C5_callback_cadence testPipeline { baseArgs with hasCallback := true } 1 ["p"] 1
      rfl rfl rfl rfl (by decide) trivial rfl (by decide)).1

theorem encodePrompt_events_basic (p : RDMPipeline) (prompts : List String) :
    ∀ e ∈ (encodePrompt p prompts).2,
      Event.isIntrospect e = false ∧ Event.isSchedStep e = false := by
  intro e he
  rw [encodePrompt_eq] at he
  simp only [List.mem_cons, List.not_mem_nil, or_false] at he
  rcases he with rfl | rfl
  · exact ⟨rfl, rfl⟩
  · exact ⟨rfl, rfl⟩

theorem fuseStage_events_basic (p : RDMPipeline) (batch_size : Nat) (tc : CondTensor)
    (ri : Option (List Vec)) :
    ∀ e ∈ (fuseStage p batch_size tc ri).2,
      Event.isIntrospect e = false ∧ Event.isSchedStep e = false := by
  intro e he
  cases ri with
  | none => cases he
  | some imgs =>
      simp only [fuseStage, List.mem_singleton] at he
      subst he
      exact ⟨rfl, rfl⟩

theorem loopOf_events_mem (p : RDMPipeline) (a : CallArgs) (cond : CondTensor) (lat : Vec) :
    ∀ e ∈ (loopOf p a cond lat).2,
      (∃ v, e = Event.unetCall v cond.length) ∨
        e = Event.schedStep (extra_step_kwargs p a.eta a.generator) ∨
        (∃ j u l, e = Event.callbackCall j u l) := by
  intro e he
  exact runLoop_events_mem p _ _ _ _ _ _ _ _ e he

/-- C6: the capability negotiation with the schedule algorithm.  The
`extra_step_kwargs` passed to every scheduler step contain `eta` exactly
when the scheduler's `step` signature accepts `eta`, and `generator`
exactly when it accepts `generator`; the two signature introspections
happen exactly once each, at loop setup before any scheduler step; and a
valid call never raises an error, whatever the scheduler's capability
flags are. -/
theorem C6_capability_negotiation (p : RDMPipeline) (a : CallArgs) (B : Nat)
    (prompts : List String)
    (hpb : promptAndBatch a.prompt = Except.ok (B, prompts))
    (hh : a.height % 8 = 0) (hw : a.width % 8 = 0)
    (hcb : callbackStepsOk a.callback_steps = true)
    (hlat : latentsOk p B a) :
    (∃ out, (pipelineCall p a).2 = Except.ok out) ∧
    (extra_step_kwargs p a.eta a.generator).eta
        = (if p.scheduler_accepts_eta then some a.eta else none) ∧
    (extra_step_kwargs p a.eta a.generator).generator
        = (if p.scheduler_accepts_generator then some a.generator else none) ∧
    (∀ kw, Event.schedStep kw ∈ (pipelineCall p a).1 →
        kw = extra_step_kwargs p a.eta a.generator) ∧
    (pipelineCall p a).1.countP Event.isIntrospect = 2 ∧
    (∃ l1 l2, (pipelineCall p a).1 = l1 ++ [Event.introspect, Event.introspect] ++ l2 ∧
        (∀ e ∈ l1, Event.isIntrospect e = false ∧ Event.isSchedStep e = false) ∧
        (∀ e ∈ l2, Event.isIntrospect e = false)) := by
  have htrace : (pipelineCall p a).1
      = (encodePrompt p prompts).2
          ++ (fuseStage p B (encodePrompt p prompts).1 a.retrieved_images).2
          ++ (runAfterLatents p a (loopConditioning p B prompts a) (initialLatents p B a)).1 := by
    rw [pipelineCall_ok p a B prompts hpb hh hw hcb hlat]
  have hsnd : (pipelineCall p a).2
      = Except.ok (runAfterLatents p a (loopConditioning p B prompts a)
          (initialLatents p B a)).2 := by
    rw [pipelineCall_ok p a B prompts hpb hh hw hcb hlat]
  have hloopIntro : ∀ e ∈ (loopOf p a (loopConditioning p B prompts a)
      (initialLatents p B a)).2, Event.isIntrospect e = false := by
    intro e he
    rcases loopOf_events_mem p a _ _ e he with ⟨v, rfl⟩ | rfl | ⟨j, u, l, rfl⟩ <;> rfl
  refine ⟨⟨_, hsnd⟩, rfl, rfl, ?_, ?_, ?_⟩
  · intro kw hkw
    rw [htrace, runAfterLatents_fst] at hkw
    rcases List.mem_append.mp hkw with h | h
    · rcases List.mem_append.mp h with h | h
      · exact Bool.noConfusion (encodePrompt_events_basic p prompts _ h).2
      · exact Bool.noConfusion (fuseStage_events_basic p B _ _ _ h).2
    · rcases List.mem_append.mp h with h | h
      · rcases List.mem_append.mp h with h | h
        · simp only [List.mem_cons, List.not_mem_nil, or_false] at h
          rcases h with h | h <;> cases h
        · rcases loopOf_events_mem p a _ _ _ h with ⟨v, hv⟩ | hv | ⟨j, u, l, hv⟩
          · cases hv
          · cases hv
            rfl
          · cases hv
      · simp only [List.mem_singleton] at h
        cases h
  · rw [htrace, runAfterLatents_fst]
    rw [List.countP_append, List.countP_append, List.countP_append, List.countP_append]
    have h1 : (encodePrompt p prompts).2.countP Event.isIntrospect = 0 :=
      List.countP_eq_zero.mpr (fun e he => by
        simp [(encodePrompt_events_basic p prompts e he).1])
    have h2 : (fuseStage p B (encodePrompt p prompts).1 a.retrieved_images).2.countP
        Event.isIntrospect = 0 :=
      List.countP_eq_zero.mpr (fun e he => by
        simp [(fuseStage_events_basic p B _ _ e he).1])
    have h3 : (loopOf p a (loopConditioning p B prompts a) (initialLatents p B a)).2.countP
        Event.isIntrospect = 0 :=
      List.countP_eq_zero.mpr (fun e he => by simp [hloopIntro e he])
    rw [h1, h2, h3]
    rfl
  · refine ⟨(encodePrompt p prompts).2
        ++ (fuseStage p B (encodePrompt p prompts).1 a.retrieved_images).2,
      (loopOf p a (loopConditioning p B prompts a) (initialLatents p B a)).2
        ++ [Event.decodeCall (finalLatentsOf p a (loopConditioning p B prompts a)
          (initialLatents p B a))], ?_, ?_, ?_⟩
    · rw [htrace, runAfterLatents_fst]
      simp [List.append_assoc]
    · intro e he
      rcases List.mem_append.mp he with h | h
      · exact encodePrompt_events_basic p prompts e h
      · exact fuseStage_events_basic p B _ _ e h
    · intro e he
      rcases List.mem_append.mp he with h | h
      · exact hloopIntro e h
      · simp only [List.mem_singleton] at h
        subst h
        rfl

/-- A pipeline whose schedule algorithm accepts neither `eta` nor a
`generator`. -/
def noCapPipeline : RDMPipeline :=
  { testPipeline with
      scheduler_accepts_eta := false
      scheduler_accepts_generator := false }

/-- Witness for C6: a scheduler accepting neither `eta` nor `generator`
still yields a successful call, with both kwargs omitted. -/
theorem C6_capability_negotiation_witness :
    (∃ out, (pipelineCall noCapPipeline baseArgs).2 = Except.ok out) ∧
    (extra_step_kwargs noCapPipeline baseArgs.eta baseArgs.generator).eta
      = (if noCapPipeline.scheduler_accepts_eta then some baseArgs.eta else none) := by
  have h := C6_capability_negotiation noCapPipeline baseArgs 1 ["p"] rfl rfl rfl rfl trivial
  exact ⟨h.1, h.2.1⟩

theorem zipWith_append_replicate (x : List Vec) (l : CondTensor) :
    List.zipWith (fun row imageRows => row ++ imageRows) l (List.replicate l.length x)
      = l.map (fun row => row ++ x) := by
  induction l with
  | nil => rfl
  | cons r rest ih => simp only [List.length_cons, List.replicate_succ, List.zipWith_cons_cons,
      List.map_cons, ih]

/-- C7: with R retrieved images and B prompts, the R images are embedded by
a single batched CLIP image call, each embedding is the L2-normalized image
feature, and the same R-element embedding block is appended after the text
embedding of every batch element, so every row of the fused (and
per-prompt duplicated) conditioning has sequence length 1 + R and carries
the identical image block — in particular one retrieved image with two
prompts broadcasts, it does not error. -/
theorem C7_retrieved_broadcast (p : RDMPipeline) (prompts : List String) (imgs : List Vec)
    (n : Nat) :
    (imageEmbeddingsOf p imgs).length = imgs.length ∧
    imageEmbeddingsOf p imgs = (preprocess_images p.feature_extractor (normalize_images imgs)).map
      (fun im => l2div p.clip_norm (p.clip_image_features im)) ∧
    (fuseStage p prompts.length (encodePrompt p prompts).1 (some imgs)).2
      = [Event.clipImageCall imgs.length] ∧
    (∀ row ∈ fuseRetrieved p prompts.length (encodePrompt p prompts).1 imgs,
        row.length = 1 + imgs.length ∧ row.drop 1 = imageEmbeddingsOf p imgs) ∧
    (∀ row ∈ duplicateEmbeddings
        (fuseRetrieved p prompts.length (encodePrompt p prompts).1 imgs) n,
        row.length = 1 + imgs.length ∧ row.drop 1 = imageEmbeddingsOf p imgs) := by
  have hlen : (imageEmbeddingsOf p imgs).length = imgs.length := by
    simp [imageEmbeddingsOf, preprocess_images, normalize_images]
  have hrows : ∀ row ∈ fuseRetrieved p prompts.length (encodePrompt p prompts).1 imgs,
      row.length = 1 + imgs.length ∧ row.drop 1 = imageEmbeddingsOf p imgs := by
    intro row hrow
    unfold fuseRetrieved at hrow
    rw [show prompts.length = ((encodePrompt p prompts).1).length by
        rw [encodePrompt_eq]; simp] at hrow
    rw [zipWith_append_replicate] at hrow
    obtain ⟨r0, hr0, rfl⟩ := List.mem_map.mp hrow
    rw [encodePrompt_eq] at hr0
    obtain ⟨s, _, rfl⟩ := List.mem_map.mp hr0
    refine ⟨?_, rfl⟩
    simp only [List.length_append, List.length_cons, List.length_nil, hlen]
  refine ⟨hlen, rfl, rfl, hrows, ?_⟩
  intro row hrow2
  unfold duplicateEmbeddings at hrow2
  obtain ⟨sub, hsub, hmem⟩ := List.mem_flatten.mp hrow2
  obtain ⟨row0, hrow0, rfl⟩ := List.mem_map.mp hsub
  have heq := List.eq_of_mem_replicate hmem
  subst heq
  exact hrows _ hrow0

/-- The pipeline with a tokenizer whose raw tokenization of every prompt is
100 tokens, exceeding `model_max_length = 77`. -/
def longPromptPipeline : RDMPipeline :=
  { testPipeline with tokenizer_encode := fun _ => List.replicate 100 7 }

/-- C8: the failing input is any prompt whose raw tokenization exceeds
`model_max_length`.  Because the tokenizer is invoked with
`truncation=True`, the ids are already truncated to `model_max_length`
before the length check of line 324, so the check is always false: the
truncated input is used and processing continues (never an error), but no
truncation warning is ever logged — the warning branch is dead code. -/
theorem C8_truncation_warning_dead :
    (longPromptPipeline.tokenizer_encode "a long prompt").length = 100 ∧
    longPromptPipeline.tokenizer_model_max_length = 77 ∧
    tokenizeMaxLength longPromptPipeline "a long prompt" = List.replicate 77 7 ∧
    (encodePrompt longPromptPipeline ["a long prompt"]).2
      = [Event.tokenizeCall 1, Event.clipTextCall 1] ∧
    (∀ (p : RDMPipeline) (prompts : List String),
        Event.warnTruncation ∉ (encodePrompt p prompts).2) := by
  refine ⟨by decide, rfl, by decide, ?_, ?_⟩
  · rw [encodePrompt_eq]
    rfl
  · intro p prompts
    rw [encodePrompt_eq]
    simp

theorem encodePrompt_no_decode (p : RDMPipeline) (prompts : List String) :
    ∀ e ∈ (encodePrompt p prompts).2, Event.isDecode e = false := by
  intro e he
  rw [encodePrompt_eq] at he
  simp only [List.mem_cons, List.not_mem_nil, or_false] at he
  rcases he with rfl | rfl <;> rfl

theorem fuseStage_no_decode (p : RDMPipeline) (batch_size : Nat) (tc : CondTensor)
    (ri : Option (List Vec)) :
    ∀ e ∈ (fuseStage p batch_size tc ri).2, Event.isDecode e = false := by
  intro e he
  cases ri with
  | none => cases he
  | some imgs =>
      simp only [fuseStage, List.mem_singleton] at he
      subst he
      rfl

theorem loopOf_no_decode (p : RDMPipeline) (a : CallArgs) (cond : CondTensor) (lat : Vec) :
    ∀ e ∈ (loopOf p a cond lat).2, Event.isDecode e = false := by
  intro e he
  rcases loopOf_events_mem p a cond lat e he with ⟨v, rfl⟩ | rfl | ⟨j, u, l, rfl⟩ <;> rfl

/-- C9: after the final denoising step the final latent is rescaled by the
codec's configured inverse scaling factor (`1 / vae.config.scaling_factor`
elementwise), decoded in exactly one batched VAE call, every pixel of the
post-processed image lies in [0, 1], and the result is the raw numeric
array unless `output_type` is `"pil"`, in which case it is converted to
image objects. -/
theorem C9_decode_and_output (p : RDMPipeline) (a : CallArgs) (B : Nat)
    (prompts : List String)
    (hpb : promptAndBatch a.prompt = Except.ok (B, prompts))
    (hh : a.height % 8 = 0) (hw : a.width % 8 = 0)
    (hcb : callbackStepsOk a.callback_steps = true)
    (hlat : latentsOk p B a) :
    (pipelineCall p a).1.countP Event.isDecode = 1 ∧
    Event.decodeCall ((loopOf p a (loopConditioning p B prompts a)
        (initialLatents p B a)).1.map (fun x => 1 / p.vae_scaling_factor * x))
      ∈ (pipelineCall p a).1 ∧
    (pipelineCall p a).2 = Except.ok (
      if a.output_type = some "pil" then
        ImageOutput.pil (postprocessImage (p.vae_decode
          ((loopOf p a (loopConditioning p B prompts a)
            (initialLatents p B a)).1.map (fun x => 1 / p.vae_scaling_factor * x))))
      else
        ImageOutput.np (postprocessImage (p.vae_decode
          ((loopOf p a (loopConditioning p B prompts a)
            (initialLatents p B a)).1.map (fun x => 1 / p.vae_scaling_factor * x))))) ∧
    (∀ x ∈ postprocessImage (p.vae_decode
        ((loopOf p a (loopConditioning p B prompts a)
          (initialLatents p B a)).1.map (fun x => 1 / p.vae_scaling_factor * x))),
      0 ≤ x ∧ x ≤ 1) := by
  have htrace : (pipelineCall p a).1
      = (encodePrompt p prompts).2
          ++ (fuseStage p B (encodePrompt p prompts).1 a.retrieved_images).2
          ++ (runAfterLatents p a (loopConditioning p B prompts a) (initialLatents p B a)).1 := by
    rw [pipelineCall_ok p a B prompts hpb hh hw hcb hlat]
  have hsnd : (pipelineCall p a).2
      = Except.ok (runAfterLatents p a (loopConditioning p B prompts a)
          (initialLatents p B a)).2 := by
    rw [pipelineCall_ok p a B prompts hpb hh hw hcb hlat]
  refine ⟨?_, ?_, ?_, postprocessImage_mem_unit _⟩
  · rw [htrace, runAfterLatents_fst, List.countP_append, List.countP_append,
      List.countP_append, List.countP_append]
    have h1 : (encodePrompt p prompts).2.countP Event.isDecode = 0 :=
      List.countP_eq_zero.mpr (fun e he => by simp [encodePrompt_no_decode p prompts e he])
    have h2 : (fuseStage p B (encodePrompt p prompts).1 a.retrieved_images).2.countP
        Event.isDecode = 0 :=
      List.countP_eq_zero.mpr (fun e he => by simp [fuseStage_no_decode p B _ _ e he])
    have h3 : (loopOf p a (loopConditioning p B prompts a) (initialLatents p B a)).2.countP
        Event.isDecode = 0 :=
      List.countP_eq_zero.mpr (fun e he => by simp [loopOf_no_decode p a _ _ e he])
    rw [h1, h2, h3]
    rfl
  · rw [htrace, runAfterLatents_fst]
    refine List.mem_append.mpr (Or.inr (List.mem_append.mpr (Or.inr ?_)))
    exact List.mem_singleton.mpr rfl
  · rw [hsnd]
    rfl

/-- Witness for C9: the concrete two-step call decodes exactly once. -/
theorem C9_decode_and_output_witness :
    (pipelineCall testPipeline baseArgs).1.countP Event.isDecode = 1 :=
  (C9_decode_and_output testPipeline baseArgs 1 ["p"] rfl rfl rfl rfl trivial).1

/-- C10: `output_type` is never validated.  With every other input valid,
the call succeeds for every value of `output_type`: exactly the value
`"pil"` converts the image to PIL objects, and every other value (`none`,
`"np"`, misspellings, ...) returns the raw numeric pixel array — the same
array in all cases — without any error. -/
theorem C10_output_type_unvalidated (p : RDMPipeline) (a : CallArgs) (B : Nat)
    (prompts : List String)
    (hpb : promptAndBatch a.prompt = Except.ok (B, prompts))
    (hh : a.height % 8 = 0) (hw : a.width % 8 = 0)
    (hcb : callbackStepsOk a.callback_steps = true)
    (hlat : latentsOk p B a) :
    (∀ ot : Option String, ot ≠ some "pil" →
        (pipelineCall p { a with output_type := ot }).2 = Except.ok (ImageOutput.np
          (decodedImage p a (loopConditioning p B prompts a) (initialLatents p B a)))) ∧
    (pipelineCall p { a with output_type := some "pil" }).2
        = Except.ok (ImageOutput.pil
          (decodedImage p a (loopConditioning p B prompts a) (initialLatents p B a))) := by
  constructor
  · intro ot hne
    have hsnd : (pipelineCall p { a with output_type := ot }).2
        = Except.ok (runAfterLatents p { a with output_type := ot }
            (loopConditioning p B prompts { a with output_type := ot })
            (initialLatents p B { a with output_type := ot })).2 := by
      rw [pipelineCall_ok p { a with output_type := ot } B prompts hpb hh hw hcb hlat]
    rw [hsnd]
    have hout : (runAfterLatents p { a with output_type := ot }
        (loopConditioning p B prompts { a with output_type := ot })
        (initialLatents p B { a with output_type := ot })).2
        = if ot = some "pil" then
            ImageOutput.pil (decodedImage p a (loopConditioning p B prompts a)
              (initialLatents p B a))
          else
            ImageOutput.np (decodedImage p a (loopConditioning p B prompts a)
              (initialLatents p B a)) := rfl
    rw [hout, if_neg hne]
  · have hsnd : (pipelineCall p { a with output_type := some "pil" }).2
        = Except.ok (runAfterLatents p { a with output_type := some "pil" }
            (loopConditioning p B prompts { a with output_type := some "pil" })
            (initialLatents p B { a with output_type := some "pil" })).2 := by
      rw [pipelineCall_ok p { a with output_type := some "pil" } B prompts hpb hh hw hcb hlat]
    rw [hsnd]
    rfl

/-- Witness for C10: the unrecognized output type `"np"` yields the raw
array without an error. -/
theorem C10_output_type_unvalidated_witness :
    (pipelineCall testPipeline { baseArgs with output_type := some "np" }).2
      = Except.ok (ImageOutput.np (decodedImage testPipeline baseArgs
          (loopConditioning testPipeline 1 ["p"] baseArgs)
          (initialLatents testPipeline 1 baseArgs))) :=
  (C10_output_type_unvalidated testPipeline baseArgs 1 ["p"] rfl rfl rfl rfl trivial).1
    (some "np") (by decide)

end RDM
